import Mathlib

/-!
Shallow embedding of the core of `gore` (`src/main.go`), an interactive
REPL for Go: a `Session` holds one compilation unit (import declarations
plus the appendable statement list of `func main()`) together with the
checkpoint `storedBodyLength`.  The Go parser, the `types.Check` semantic
checker and the `go run` child process are external capabilities; they are
modelled as oracle functions passed to the operations, while everything
the Go code itself computes (command dispatch, injection, the quick-fix
patching including its two message regexes, commit/rollback) is translated
directly from the source.
-/

namespace Gore

set_option maxRecDepth 8192

/-- Go AST expressions, as far as the session code constructs or holds them:
`ast.NewIdent`, the `ast.CallExpr` built by `injectExpr`, and arbitrary
expressions obtained from `parser.ParseExpr` (kept as uninterpreted text). -/
inductive Expr where
  | ident : String → Expr
  | call : Expr → List Expr → Expr
  | raw : String → Expr

/-- Go AST statements as held in `mainBody.List`: the `ast.ExprStmt` built by
`injectExpr`, the `ast.AssignStmt` (`Lhs`, token.ASSIGN, `Rhs`) built by
`quickFixFile`, and arbitrary statements obtained from parsing user input. -/
inductive Stmt where
  | exprStmt : Expr → Stmt
  | assign : List Expr → List Expr → Stmt
  | raw : String → Stmt

/-- One `*ast.ImportSpec`: optional alias (`Name`) and the quoted path
literal (`Path.Value`, quotes included, as in the Go AST). -/
structure ImportSpec where
  name : Option String
  path : String

/-- The mutable parts of the session's `*ast.File`: the import declarations
(`File.Imports`) and the statement list of `func main()`'s body
(`s.mainBody.List`).  The fixed skeleton (package clause, the helper
`func p`) is constant and reproduced by `serialize`. -/
structure File where
  imports : List ImportSpec
  mainBody : List Stmt

/-- The `Session` struct: the file plus `storedBodyLength` (the checkpoint). -/
structure Session where
  file : File
  storedBodyLength : Nat

mutual

/-- Rendering of an expression, modelling `printer.Fprint` on the node. -/
def serializeExpr : Expr → String
  | Expr.ident s => s
  | Expr.raw s => s
  | Expr.call fn args => serializeExpr fn ++ "(" ++ serializeExprList args ++ ")"

/-- Comma-separated rendering of an argument list. -/
def serializeExprList : List Expr → String
  | [] => ""
  | [e] => serializeExpr e
  | e :: e2 :: es => serializeExpr e ++ ", " ++ serializeExprList (e2 :: es)

end

/-- Rendering of one statement. -/
def serializeStmt : Stmt → String
  | Stmt.exprStmt e => serializeExpr e
  | Stmt.assign lhs rhs => serializeExprList lhs ++ " = " ++ serializeExprList rhs
  | Stmt.raw s => s

/-- Rendering of one import declaration (alias, if any, then quoted path). -/
def serializeImport : ImportSpec → String
  | { name := none, path := p } => "import " ++ p
  | { name := some n, path := p } => "import " ++ n ++ " " ++ p

/-- The fixed helper of `initialSource`: `func p` printing each argument. -/
def helperSource : String :=
  "func p(xx ...interface\x7b\x7d) \x7b\n\tfor _, x := range xx \x7b\n\t\tfmt.Printf(\"%#v\\n\", x)\n\t\x7d\n\x7d\n"

/-- Model of `printer.Fprint` over the whole file, as `BuildRunFile`/`handlePrint` do:
package clause, imports, the helper `p`, then `func main()` with the body. -/
def serialize (f : File) : String :=
  "package main\n"
    ++ String.join (f.imports.map (fun i => serializeImport i ++ "\n"))
    ++ helperSource
    ++ "func main() \x7b\n"
    ++ String.join (f.mainBody.map (fun st => "\t" ++ serializeStmt st ++ "\n"))
    ++ "\x7d\n"

/-- The file parsed from `initialSource`: a single `"fmt"` import (quoted
path value, no alias) and an empty `func main()` body. -/
def initialFile : File :=
  { imports := [{ name := none, path := "\"fmt\"" }], mainBody := [] }

/-- The `NewSession` constructor: parses `initialSource`; `storedBodyLength` is Go's zero
value, 0. -/
def NewSession : Session :=
  { file := initialFile, storedBodyLength := 0 }

/-- Model of `strings.HasPrefix(in, ":import ")`, the guard of `handleImport`. -/
def isImportCmd (inp : String) : Bool :=
  ":import ".data.isPrefixOf inp.data

/-- Model of `strings.TrimSpace`: drop whitespace from both ends. -/
def trimSpaceChars (cs : List Char) : List Char :=
  ((cs.dropWhile Char.isWhitespace).reverse.dropWhile Char.isWhitespace).reverse

/-- The test `strings.TrimSpace(in) == ":print"`, the guard of `handlePrint`. -/
def isPrintCmd (inp : String) : Bool :=
  trimSpaceChars inp.data == ":print".data

/-- Model of `strings.Trim(path, quote)`: strip all leading and trailing quote chars. -/
def trimQuotes (s : String) : String :=
  String.mk (((s.data.dropWhile (· == '"')).reverse.dropWhile (· == '"')).reverse)

/-- Model of `astutil.AddImport`: add an (alias-free) import for the path if the file
does not already import it.  The stored path is the quoted literal. -/
def addImport (f : File) (rawPath : String) : File :=
  let p := "\"" ++ trimQuotes rawPath ++ "\""
  if f.imports.any (fun i => i.path == p) then f
  else { f with imports := f.imports ++ [{ name := none, path := p }] }

/-- The body of `handleImport` after its guard: drop `":import "`, trim quotes,
add the import. -/
def handleImport (f : File) (inp : String) : File :=
  addImport f (String.mk (inp.data.drop ":import ".data.length))

/-- The `clearQuickFix` method: make all import specs explicit again (`imp.Name = nil`). -/
def clearQuickFix (f : File) : File :=
  { f with imports := f.imports.map (fun i => { i with name := none }) }

/-- The statement built by `injectExpr`: `ast.ExprStmt` wrapping
`p(<expr>)` — a call of the display helper with the parsed expression as
its only argument. -/
def wrapExpr (e : Expr) : Stmt :=
  Stmt.exprStmt (Expr.call (Expr.ident "p") [e])

/-- The error returned by `injectStmt`'s `parser.ParseFile`; `Run` only
inspects whether it is a `scanner.ErrorList`. -/
structure StmtParseErr where
  isScannerErrorList : Bool

/-- Outcome of the command-handling/injection phase of `Run`: the file
after mutation, whether `Run` returns `ErrContinue`, and what
`handlePrint` printed (if it ran). -/
structure PhaseOut where
  file : File
  needsContinue : Bool
  printed : Option String

/-- The phase of `Run` before `quickFixFile`:
`if !s.handleImport(in) && !s.handlePrint(in) { injectExpr / injectStmt }`.
`pe` is the `parser.ParseExpr` oracle, `ps` the `parser.ParseFile` oracle
for `"package P; func F() { <in> }"` (giving the statements of `F`'s body).
A statement-parse failure signals continuation exactly when the error is a
`scanner.ErrorList`; any other parse error falls through with the body
unmutated, as in the source. -/
def injectPhase (pe : String → Option Expr)
    (ps : String → Except StmtParseErr (List Stmt))
    (f : File) (inp : String) : PhaseOut :=
  if isImportCmd inp then
    { file := handleImport f inp, needsContinue := false, printed := none }
  else if isPrintCmd inp then
    { file := f, needsContinue := false, printed := some (serialize f) }
  else
    match pe inp with
    | some e =>
        { file := { f with mainBody := f.mainBody ++ [wrapExpr e] },
          needsContinue := false, printed := none }
    | none =>
        match ps inp with
        | Except.ok stmts =>
            { file := { f with mainBody := f.mainBody ++ stmts },
              needsContinue := false, printed := none }
        | Except.error err =>
            { file := f, needsContinue := err.isScannerErrorList, printed := none }

/-- The character class `[a-zA-Z0-9_]` of `rxDeclaredNotUsed`. -/
def isIdentChar (c : Char) : Bool :=
  c.isAlpha || c.isDigit || c == '_'

/-- The regex `^([a-zA-Z0-9_]+) declared but not used`, returning the
captured identifier.  Since the character after the greedy class is a
space (not in the class), the regex matches iff the maximal identifier
prefix is nonempty and is followed by the literal text. -/
def rxDeclaredNotUsed (msg : String) : Option String :=
  let pre := msg.data.takeWhile isIdentChar
  if pre.isEmpty then none
  else if " declared but not used".data.isPrefixOf (msg.data.drop pre.length) then
    some (String.mk pre)
  else none

/-- All splits of a character list at a `'"'`: pairs `(X, rest)` with
`cs = X ++ '"' :: rest`, in order of increasing `X`. -/
def quoteSplits : List Char → List (List Char × List Char)
  | [] => []
  | c :: cs =>
      let rest := (quoteSplits cs).map (fun p => (c :: p.1, p.2))
      if c == '"' then ([], cs) :: rest else rest

/-- The regex `^(".+") imported but not used`, returning the captured
quoted path.  `.` excludes newlines and the greedy `.+` backtracks from
the right, so the capture uses the rightmost closing quote whose remainder
is the literal text, with a nonempty newline-free interior. -/
def rxImportedNotUsed (msg : String) : Option String :=
  match msg.data with
  | '"' :: cs =>
      let valid := (quoteSplits cs).filter fun p =>
        !p.1.isEmpty && !p.1.contains '\n'
          && " imported but not used".data.isPrefixOf p.2
      match valid.getLast? with
      | some p => some (String.mk ('"' :: (p.1 ++ ['"'])))
      | none => none
  | _ => none

/-- The patch for "declared but not used": the statement `_ = <ident>`
(`ast.AssignStmt` with `Lhs` `_`, `token.ASSIGN`, `Rhs` the identifier). -/
def discardStmt (x : String) : Stmt :=
  Stmt.assign [Expr.ident "_"] [Expr.ident x]

/-- The patch loop of the "imported but not used" branch: walk
`s.File.Imports`, make the first spec whose `Path.Value` equals the
captured path anonymous (`imp.Name = "_"`), then `break`. -/
def markFirstImport : List ImportSpec → String → List ImportSpec
  | [], _ => []
  | imp :: rest, p =>
      if imp.path == p then { imp with name := some "_" } :: rest
      else imp :: markFirstImport rest p

/-- The patching step of one `quickFixFile` iteration for a soft
diagnostic message: append `_ = x` for the unused-binding pattern, mark
the matching import anonymous for the unused-import pattern, and `none`
("give up") when neither pattern matches. -/
def applySoftFix (f : File) (msg : String) : Option File :=
  match rxDeclaredNotUsed msg with
  | some x => some { f with mainBody := f.mainBody ++ [discardStmt x] }
  | none =>
      match rxImportedNotUsed msg with
      | some p => some { f with imports := markFirstImport f.imports p }
      | none => none

/-- The error `types.Check` may return: a `types.Error` (of which the code
reads `Soft` and `Msg`), or some other error value. -/
inductive CheckErr where
  | typesError : Bool → String → CheckErr
  | otherError : CheckErr

/-- The value `quickFixFile` returns: `nil`, or a hard error propagated
from the checker. -/
inductive FixResult where
  | ok : FixResult
  | hardError : CheckErr → FixResult

/-- Instrumented outcome of the quick-fix loop: the resulting file, the
returned value, and how many checker invocations and patches occurred. -/
structure FixTrace where
  file : File
  result : FixResult
  checks : Nat
  patches : Nat

/-- The `for i := 0; i < maxAttempts; i++` loop of `quickFixFile`, with the
iteration budget as fuel.  Each iteration runs the checker (`check`, the
`types.Check` oracle); no error breaks with success; a soft `types.Error`
is patched via `applySoftFix` and the loop continues (or, if neither
pattern matches, breaks with success — the "give up" branch returns `nil`);
any other error is returned as a hard failure. -/
def quickFixLoop (check : File → Option CheckErr) : Nat → File → FixTrace
  | 0, f => { file := f, result := FixResult.ok, checks := 0, patches := 0 }
  | n + 1, f =>
      match check f with
      | none => { file := f, result := FixResult.ok, checks := 1, patches := 0 }
      | some e =>
          match e with
          | CheckErr.typesError true msg =>
              match applySoftFix f msg with
              | some f2 =>
                  let t := quickFixLoop check n f2
                  { file := t.file, result := t.result,
                    checks := t.checks + 1, patches := t.patches + 1 }
              | none =>
                  { file := f, result := FixResult.ok, checks := 1, patches := 0 }
          | _ =>
              { file := f, result := FixResult.hardError e, checks := 1, patches := 0 }

/-- The constant `maxAttempts = 10`. -/
def maxAttempts : Nat := 10

/-- The `quickFixFile` method: run the loop with the attempt budget; the caller sees
the mutated file and the returned value. -/
def quickFixFile (check : File → Option CheckErr) (f : File) : File × FixResult :=
  ((quickFixLoop check maxAttempts f).file, (quickFixLoop check maxAttempts f).result)

/-- Result of `BuildRunFile`'s `goRun`: `nil` (exit code 0), an
`*exec.ExitError` carrying the child's exit status, or any other error
(the process could not be started, or writing the file failed). -/
inductive BuildResult where
  | success : BuildResult
  | exit : Nat → BuildResult
  | otherFailure : BuildResult

/-- The error `Run` returns: `ErrContinue`, or the build/run error. -/
inductive RunError where
  | errContinue : RunError
  | buildFailure : BuildResult → RunError

/-- Observable outcome of one `Run` cycle: the session afterwards, the
returned error, what `handlePrint` printed, and whether `BuildRunFile`
was invoked. -/
structure RunResult where
  session : Session
  error : Option RunError
  printed : Option String
  buildInvoked : Bool

/-- The tail of `Run`: classify `BuildRunFile`'s result.  Success calls
`RememberCode` (checkpoint := body length); an `ExitError` with status 2
calls `RecallCode` (`s.mainBody.List = s.mainBody.List[0:s.storedBodyLength]`,
modelled by `List.take`, which agrees with the Go slice whenever the
checkpoint is within bounds — see the C10 invariant); any other failure
leaves the file as mutated. -/
def commitOrRollback (build : File → BuildResult) (stored : Nat)
    (f2 : File) (pr : Option String) : RunResult :=
  match build f2 with
  | BuildResult.success =>
      { session := { file := f2, storedBodyLength := f2.mainBody.length },
        error := none, printed := pr, buildInvoked := true }
  | BuildResult.exit st =>
      { session :=
          { file := if st = 2 then { f2 with mainBody := f2.mainBody.take stored } else f2,
            storedBodyLength := stored },
        error := some (RunError.buildFailure (BuildResult.exit st)),
        printed := pr, buildInvoked := true }
  | BuildResult.otherFailure =>
      { session := { file := f2, storedBodyLength := stored },
        error := some (RunError.buildFailure BuildResult.otherFailure),
        printed := pr, buildInvoked := true }

/-- The rest of `Run` after its initial `clearQuickFix`: command handling / injection,
then — unless `ErrContinue` was returned — `quickFixFile` (result value
discarded, as in the source) and `BuildRunFile` with commit/rollback. -/
def runFromCleared (pe : String → Option Expr)
    (ps : String → Except StmtParseErr (List Stmt))
    (check : File → Option CheckErr) (build : File → BuildResult)
    (s : Session) (inp : String) : RunResult :=
  if (injectPhase pe ps s.file inp).needsContinue then
    { session := { file := (injectPhase pe ps s.file inp).file,
                   storedBodyLength := s.storedBodyLength },
      error := some RunError.errContinue,
      printed := (injectPhase pe ps s.file inp).printed,
      buildInvoked := false }
  else
    commitOrRollback build s.storedBodyLength
      (quickFixLoop check maxAttempts (injectPhase pe ps s.file inp).file).file
      (injectPhase pe ps s.file inp).printed

/-- One `Run(in)` cycle: `s.clearQuickFix()` first, then the rest. -/
def Session.run (pe : String → Option Expr)
    (ps : String → Except StmtParseErr (List Stmt))
    (check : File → Option CheckErr) (build : File → BuildResult)
    (s : Session) (inp : String) : RunResult :=
  runFromCleared pe ps check build
    { file := clearQuickFix s.file, storedBodyLength := s.storedBodyLength } inp

/-- Lemma: `clearQuickFix` touches only import aliases, never the body. -/
theorem clearQuickFix_body (f : File) : (clearQuickFix f).mainBody = f.mainBody := rfl

/-- Lemma: `handleImport` adds an import declaration, never a statement. -/
theorem handleImport_body (f : File) (inp : String) :
    (handleImport f inp).mainBody = f.mainBody := by
  simp only [handleImport, addImport]
  split <;> rfl

/-- Every outcome of the command/injection phase only appends statements. -/
theorem injectPhase_body (pe : String → Option Expr)
    (ps : String → Except StmtParseErr (List Stmt)) (f : File) (inp : String) :
    ∃ extra, (injectPhase pe ps f inp).file.mainBody = f.mainBody ++ extra := by
  unfold injectPhase
  split
  · exact ⟨[], by simp [handleImport_body]⟩
  · split
    · exact ⟨[], by simp⟩
    · split
      · exact ⟨[wrapExpr _], rfl⟩
      · split
        · exact ⟨_, rfl⟩
        · exact ⟨[], by simp⟩

/-- A soft-diagnostic patch only appends statements. -/
theorem applySoftFix_body {f : File} {msg : String} {f2 : File}
    (h : applySoftFix f msg = some f2) :
    ∃ extra, f2.mainBody = f.mainBody ++ extra := by
  unfold applySoftFix at h
  split at h
  next x _ =>
    cases h
    exact ⟨[discardStmt x], rfl⟩
  next =>
    split at h
    next =>
      cases h
      exact ⟨[], by simp⟩
    next => cases h

/-- The quick-fix loop only appends statements to the body. -/
theorem quickFixLoop_body (check : File → Option CheckErr) :
    ∀ (n : Nat) (f : File),
      ∃ extra, (quickFixLoop check n f).file.mainBody = f.mainBody ++ extra := by
  intro n
  induction n with
  | zero => exact fun f => ⟨[], by simp [quickFixLoop]⟩
  | succ n ih =>
      intro f
      unfold quickFixLoop
      split
      · exact ⟨[], by simp⟩
      · split
        · split
          next f2 hfix =>
            obtain ⟨e1, h1⟩ := applySoftFix_body hfix
            obtain ⟨e2, h2⟩ := ih f2
            exact ⟨e1 ++ e2, by simp [h2, h1]⟩
          next => exact ⟨[], by simp⟩
        · exact ⟨[], by simp⟩

/-- Each loop iteration runs the checker at most once and applies at most
one patch, so both counts are bounded by the fuel. -/
theorem quickFixLoop_counts (check : File → Option CheckErr) :
    ∀ (n : Nat) (f : File),
      (quickFixLoop check n f).checks ≤ n ∧ (quickFixLoop check n f).patches ≤ n := by
  intro n
  induction n with
  | zero => exact fun f => ⟨Nat.le_refl 0, Nat.le_refl 0⟩
  | succ n ih =>
      intro f
      unfold quickFixLoop
      split
      · exact ⟨Nat.succ_le_succ (Nat.zero_le n), Nat.zero_le _⟩
      · split
        · split
          next f2 _ =>
            exact ⟨Nat.succ_le_succ (ih f2).1, Nat.succ_le_succ (ih f2).2⟩
          next => exact ⟨Nat.succ_le_succ (Nat.zero_le n), Nat.zero_le _⟩
        · exact ⟨Nat.succ_le_succ (Nat.zero_le n), Nat.zero_le _⟩

/-- Marking the matching import: with no earlier import of the same path,
exactly the matching spec gets the `_` alias and nothing else changes. -/
theorem markFirstImport_eq (p : String) :
    ∀ (pre : List ImportSpec) (nm : Option String) (post : List ImportSpec),
      (∀ i ∈ pre, i.path ≠ p) →
      markFirstImport (pre ++ { name := nm, path := p } :: post) p
        = pre ++ { name := some "_", path := p } :: post := by
  intro pre
  induction pre with
  | nil =>
      intro nm post _
      simp [markFirstImport]
  | cons a pre ih =>
      intro nm post h
      have ha : (a.path == p) = false := by
        simp only [beq_eq_false_iff_ne]
        exact h a (List.mem_cons_self a pre)
      simp only [List.cons_append, markFirstImport, ha, Bool.false_eq_true,
        if_false, List.cons.injEq, true_and]
      exact ih nm post (fun i hi => h i (List.mem_cons_of_mem a hi))

/-- All import aliases of a file are absent (`imp.Name == nil`). -/
def allAliasNone (f : File) : Bool :=
  f.imports.all (fun i => i.name.isNone)

/-- After `clearQuickFix`, every import alias is absent. -/
theorem clearQuickFix_alias (f : File) : allAliasNone (clearQuickFix f) = true := by
  simp [allAliasNone, clearQuickFix, List.all_eq_true]

/-- Lemma: `handleImport` adds only an alias-free import. -/
theorem handleImport_alias (f : File) (inp : String) (h : allAliasNone f = true) :
    allAliasNone (handleImport f inp) = true := by
  simp only [allAliasNone, handleImport, addImport] at h ⊢
  split
  · exact h
  · simp only [List.all_append, h, Bool.true_and, List.all_cons, List.all_nil]
    rfl

/-- The command/injection phase never introduces an import alias. -/
theorem injectPhase_alias (pe : String → Option Expr)
    (ps : String → Except StmtParseErr (List Stmt)) (f : File) (inp : String)
    (h : allAliasNone f = true) :
    allAliasNone (injectPhase pe ps f inp).file = true := by
  unfold injectPhase
  split
  · exact handleImport_alias f inp h
  · split
    · exact h
    · split
      · exact h
      · split
        · exact h
        · exact h

/-- Concrete oracle: `parser.ParseExpr` succeeding on the literal `1`. -/
def peLit : String → Option Expr :=
  fun s => if s = "1" then some (Expr.raw "1") else none

/-- Concrete oracle: `parser.ParseExpr` failing on every input. -/
def peFail : String → Option Expr := fun _ => none

/-- Concrete oracle: statement parsing failing with a `scanner.ErrorList`
(the error type `go/parser` reports for syntax errors). -/
def psScanner : String → Except StmtParseErr (List Stmt) :=
  fun _ => Except.error { isScannerErrorList := true }

/-- Concrete oracle: `types.Check` reporting no error. -/
def checkClean : File → Option CheckErr := fun _ => none

/-- Concrete oracle: the build/run child exiting with status 0. -/
def buildOk : File → BuildResult := fun _ => BuildResult.success

/-- Concrete oracle: the build/run child exiting with status 2. -/
def buildExit2 : File → BuildResult := fun _ => BuildResult.exit 2

/-- Concrete oracle: the build/run child exiting with status 1. -/
def buildExit1 : File → BuildResult := fun _ => BuildResult.exit 1

/-- Concrete oracle: a soft `types.Error` matching neither quick-fix
pattern. -/
def checkSoftUnknown : File → Option CheckErr :=
  fun _ => some (CheckErr.typesError true "mysterious condition")

/-- Concrete oracle: a non-soft `types.Error`. -/
def checkHard : File → Option CheckErr :=
  fun _ => some (CheckErr.typesError false "undefined: y")

/-- Concrete oracle: a checker forever reporting the same soft
unused-binding diagnostic (a non-converging diagnostic sequence). -/
def checkSoftDeclared : File → Option CheckErr :=
  fun _ => some (CheckErr.typesError true "x declared but not used")

/-- Concrete session state: one committed statement (checkpoint 1). -/
def sessionOneCommitted : Session :=
  { file := { imports := [{ name := none, path := "\"fmt\"" }],
              mainBody := [discardStmt "x"] },
    storedBodyLength := 1 }

/-- One-step unfolding of the quick-fix loop on positive fuel. -/
theorem quickFixLoop_succ (check : File → Option CheckErr) (n : Nat) (f : File) :
    quickFixLoop check (n + 1) f =
      match check f with
      | none => { file := f, result := FixResult.ok, checks := 1, patches := 0 }
      | some e =>
          match e with
          | CheckErr.typesError true msg =>
              match applySoftFix f msg with
              | some f2 =>
                  let t := quickFixLoop check n f2
                  { file := t.file, result := t.result,
                    checks := t.checks + 1, patches := t.patches + 1 }
              | none =>
                  { file := f, result := FixResult.ok, checks := 1, patches := 0 }
          | _ =>
              { file := f, result := FixResult.hardError e, checks := 1, patches := 0 } :=
  rfl

/-- Unfolding of one `Run` cycle into its phase outcome and the
commit/rollback tail. -/
theorem run_eq (pe : String → Option Expr)
    (ps : String → Except StmtParseErr (List Stmt))
    (check : File → Option CheckErr) (build : File → BuildResult)
    (s : Session) (inp : String) :
    Session.run pe ps check build s inp =
      if (injectPhase pe ps (clearQuickFix s.file) inp).needsContinue then
        { session := { file := (injectPhase pe ps (clearQuickFix s.file) inp).file,
                       storedBodyLength := s.storedBodyLength },
          error := some RunError.errContinue,
          printed := (injectPhase pe ps (clearQuickFix s.file) inp).printed,
          buildInvoked := false }
      else
        commitOrRollback build s.storedBodyLength
          (quickFixLoop check maxAttempts
            (injectPhase pe ps (clearQuickFix s.file) inp).file).file
          (injectPhase pe ps (clearQuickFix s.file) inp).printed :=
  rfl

/-- C5: The auto-fix loop runs the semantic checker, and applies patches,
at most `maxAttempts = 10` times, for every checker behaviour — the loop is
fuel-bounded and hence terminates even for a diagnostic sequence that never
converges to empty (e.g. `checkSoftDeclared`, which reports the same soft
unused-binding diagnostic forever and exhausts the whole budget). -/
theorem quickfix_attempt_bound (check : File → Option CheckErr) (f : File) :
    (quickFixLoop check maxAttempts f).checks ≤ maxAttempts ∧
    (quickFixLoop check maxAttempts f).patches ≤ maxAttempts ∧
    (quickFixLoop checkSoftDeclared maxAttempts initialFile).checks = maxAttempts :=
  ⟨(quickFixLoop_counts check maxAttempts f).1,
   (quickFixLoop_counts check maxAttempts f).2, rfl⟩

/-- C6 counterexample: a soft diagnostic matching neither recognized
pattern makes `quickFixFile` stop without a patch but return `nil`
(`FixResult.ok`) — the `break` in the give-up branch falls through to
`return nil` — so no hard failure is propagated to the caller,
contradicting the claim. -/
theorem soft_unmatched_returns_nil :
    quickFixLoop checkSoftUnknown maxAttempts initialFile
      = { file := initialFile, result := FixResult.ok, checks := 1, patches := 0 } ∧
    (quickFixFile checkSoftUnknown initialFile).2 = FixResult.ok :=
  ⟨rfl, rfl⟩

/-- C6 (amended): when the first diagnostic is not classified soft (a
non-soft `types.Error` or a non-`types.Error` value), the loop stops
without patching and propagates it as a hard failure; when it is soft but
matches neither recognized pattern, the loop stops without patching but
returns success (`nil`) — it is not propagated as an error. -/
theorem quickfix_stop_behavior (check : File → Option CheckErr) (f : File)
    (e : CheckErr) (h : check f = some e) :
    (∀ msg, e = CheckErr.typesError false msg →
      quickFixLoop check maxAttempts f
        = { file := f, result := FixResult.hardError e, checks := 1, patches := 0 }) ∧
    (e = CheckErr.otherError →
      quickFixLoop check maxAttempts f
        = { file := f, result := FixResult.hardError e, checks := 1, patches := 0 }) ∧
    (∀ msg, e = CheckErr.typesError true msg → rxDeclaredNotUsed msg = none →
      rxImportedNotUsed msg = none →
      quickFixLoop check maxAttempts f
        = { file := f, result := FixResult.ok, checks := 1, patches := 0 }) := by
  have hm : maxAttempts = 9 + 1 := rfl
  refine ⟨?_, ?_, ?_⟩
  · intro msg he
    subst he
    rw [hm, quickFixLoop_succ, h]
  · intro he
    subst he
    rw [hm, quickFixLoop_succ, h]
  · intro msg he hd hi
    subst he
    rw [hm, quickFixLoop_succ, h]
    simp [applySoftFix, hd, hi]

/-- C6 witness: a concrete non-soft diagnostic is propagated unmodified as
the hard result of the loop on the initial file. -/
theorem quickfix_stop_behavior_witness :
    checkHard initialFile = some (CheckErr.typesError false "undefined: y") ∧
    quickFixLoop checkHard maxAttempts initialFile
      = { file := initialFile,
          result := FixResult.hardError (CheckErr.typesError false "undefined: y"),
          checks := 1, patches := 0 } :=
  ⟨rfl, (quickfix_stop_behavior checkHard initialFile
      (CheckErr.typesError false "undefined: y") rfl).1 "undefined: y" rfl⟩

/-- C7: for a soft diagnostic matching the unused-local-binding pattern
with identifier `x`, the patch appends exactly the one statement `_ = x`
at the end of the entry body; for one matching the unused-import pattern
with (quoted) path `p`, the patch sets the alias of the import declaration
whose path equals `p` to `_` and appends nothing. -/
theorem soft_patch_shapes (f : File) (msg : String) :
    (∀ x, rxDeclaredNotUsed msg = some x →
      applySoftFix f msg = some { f with mainBody := f.mainBody ++ [discardStmt x] }) ∧
    (∀ p pre nm post, rxDeclaredNotUsed msg = none → rxImportedNotUsed msg = some p →
      f.imports = pre ++ { name := nm, path := p } :: post →
      (∀ i ∈ pre, i.path ≠ p) →
      applySoftFix f msg
        = some { imports := pre ++ { name := some "_", path := p } :: post,
                 mainBody := f.mainBody }) := by
  constructor
  · intro x hx
    simp [applySoftFix, hx]
  · intro p pre nm post hd hi hf hpre
    simp only [applySoftFix, hd, hi]
    rw [hf, markFirstImport_eq p pre nm post hpre]

/-- C7 witness: the two canonical checker messages, patched on the initial
file (whose one import is `"fmt"`). -/
theorem soft_patch_shapes_witness :
    rxDeclaredNotUsed "x declared but not used" = some "x" ∧
    applySoftFix initialFile "x declared but not used"
      = some { initialFile with mainBody := initialFile.mainBody ++ [discardStmt "x"] } ∧
    rxImportedNotUsed "\"fmt\" imported but not used" = some "\"fmt\"" ∧
    applySoftFix initialFile "\"fmt\" imported but not used"
      = some { imports := [] ++ { name := some "_", path := "\"fmt\"" } :: [],
               mainBody := initialFile.mainBody } := by
  refine ⟨rfl, ?_, rfl, ?_⟩
  · exact (soft_patch_shapes initialFile "x declared but not used").1 "x" rfl
  · exact (soft_patch_shapes initialFile "\"fmt\" imported but not used").2
      "\"fmt\"" [] none [] rfl rfl rfl (fun i hi => absurd hi (List.not_mem_nil i))

/-- C8: every `Run` cycle starts with `clearQuickFix` (the cycle is, by
definition, the rest of the work on the cleared file), after which no
alias remains on any import; and the file handed to the first checker
invocation of the cycle (the input of `quickFixFile`, after command
handling and injection) still has every import alias cleared — so a spec
marked `_` by auto-fix in cycle N is non-discarded before cycle
N+1's first check. -/
theorem import_alias_reset (pe : String → Option Expr)
    (ps : String → Except StmtParseErr (List Stmt))
    (check : File → Option CheckErr) (build : File → BuildResult)
    (s : Session) (inp : String) :
    Session.run pe ps check build s inp
      = runFromCleared pe ps check build
          { file := clearQuickFix s.file, storedBodyLength := s.storedBodyLength } inp ∧
    allAliasNone (clearQuickFix s.file) = true ∧
    allAliasNone (injectPhase pe ps (clearQuickFix s.file) inp).file = true :=
  ⟨rfl, clearQuickFix_alias s.file,
    injectPhase_alias pe ps (clearQuickFix s.file) inp (clearQuickFix_alias s.file)⟩

/-- C1: in a cycle that reaches the build step, an exit status of 2 (the
designated input-caused failure) truncates the entry body back to exactly
the committed prefix (the checkpoint-length prefix of the pre-cycle body,
i.e. the content after the previous commit); any other exit status, or a
failure to start the process, performs no truncation — the body keeps
everything appended during the failed cycle. -/
theorem run_rollback_exactness (pe : String → Option Expr)
    (ps : String → Except StmtParseErr (List Stmt))
    (check : File → Option CheckErr) (build : File → BuildResult)
    (s : Session) (inp : String) (f2 : File)
    (hinv : s.storedBodyLength ≤ s.file.mainBody.length)
    (hnc : (injectPhase pe ps (clearQuickFix s.file) inp).needsContinue = false)
    (hf2 : f2 = (quickFixLoop check maxAttempts
        (injectPhase pe ps (clearQuickFix s.file) inp).file).file) :
    (build f2 = BuildResult.exit 2 →
      (Session.run pe ps check build s inp).session.file.mainBody
        = s.file.mainBody.take s.storedBodyLength) ∧
    (∀ st, st ≠ 2 → build f2 = BuildResult.exit st →
      (Session.run pe ps check build s inp).session.file.mainBody = f2.mainBody) ∧
    (build f2 = BuildResult.otherFailure →
      (Session.run pe ps check build s inp).session.file.mainBody = f2.mainBody) := by
  obtain ⟨e1, h1⟩ := injectPhase_body pe ps (clearQuickFix s.file) inp
  rw [clearQuickFix_body] at h1
  obtain ⟨e2, h2⟩ :=
    quickFixLoop_body check maxAttempts (injectPhase pe ps (clearQuickFix s.file) inp).file
  have hbody : f2.mainBody = s.file.mainBody ++ (e1 ++ e2) := by
    rw [hf2, h2, h1, List.append_assoc]
  have hr : Session.run pe ps check build s inp
      = commitOrRollback build s.storedBodyLength f2
          (injectPhase pe ps (clearQuickFix s.file) inp).printed := by
    rw [run_eq, hnc, hf2]
    simp
  refine ⟨?_, ?_, ?_⟩
  · intro hb
    rw [hr]
    simp [commitOrRollback, hb, hbody, List.take_append_of_le_length hinv]
  · intro st hst hb
    rw [hr]
    simp [commitOrRollback, hb, hst]
  · intro hb
    rw [hr]
    simp [commitOrRollback, hb]

/-- C1 witness: a session with one committed statement; the cycle appends
`p(1)` and the child exits with status 2, so the body is truncated back to
the single committed statement. -/
theorem run_rollback_exactness_witness :
    sessionOneCommitted.storedBodyLength ≤ sessionOneCommitted.file.mainBody.length ∧
    (Session.run peLit psScanner checkClean buildExit2 sessionOneCommitted "1").session.file.mainBody
      = sessionOneCommitted.file.mainBody.take sessionOneCommitted.storedBodyLength :=
  ⟨Nat.le_refl 1,
    (run_rollback_exactness peLit psScanner checkClean buildExit2 sessionOneCommitted "1" _
      (Nat.le_refl 1) rfl rfl).1 rfl⟩

/-- C2: the checkpoint is 0 at session creation; a cycle that ends with no
error (the build/run step ran and exited 0) leaves the checkpoint equal to
the current body length; and in any cycle that is not an exit-status-2
rollback the body length does not decrease. -/
theorem checkpoint_lifecycle (pe : String → Option Expr)
    (ps : String → Except StmtParseErr (List Stmt))
    (check : File → Option CheckErr) (build : File → BuildResult)
    (s : Session) (inp : String) :
    NewSession.storedBodyLength = 0 ∧
    ((Session.run pe ps check build s inp).error = none →
      (Session.run pe ps check build s inp).session.storedBodyLength
        = (Session.run pe ps check build s inp).session.file.mainBody.length) ∧
    ((Session.run pe ps check build s inp).error
        ≠ some (RunError.buildFailure (BuildResult.exit 2)) →
      s.file.mainBody.length
        ≤ (Session.run pe ps check build s inp).session.file.mainBody.length) := by
  obtain ⟨e1, h1⟩ := injectPhase_body pe ps (clearQuickFix s.file) inp
  rw [clearQuickFix_body] at h1
  obtain ⟨e2, h2⟩ :=
    quickFixLoop_body check maxAttempts (injectPhase pe ps (clearQuickFix s.file) inp).file
  refine ⟨rfl, ?_, ?_⟩
  · intro herr
    rw [run_eq] at herr ⊢
    cases hc : (injectPhase pe ps (clearQuickFix s.file) inp).needsContinue with
    | true => rw [hc] at herr; simp at herr
    | false =>
        rw [hc] at herr
        simp only [Bool.false_eq_true, if_false] at herr ⊢
        cases hb : build (quickFixLoop check maxAttempts
            (injectPhase pe ps (clearQuickFix s.file) inp).file).file with
        | success => simp [commitOrRollback, hb]
        | exit st => simp [commitOrRollback, hb] at herr
        | otherFailure => simp [commitOrRollback, hb] at herr
  · intro herr
    rw [run_eq] at herr ⊢
    cases hc : (injectPhase pe ps (clearQuickFix s.file) inp).needsContinue with
    | true =>
        rw [if_pos rfl]
        show s.file.mainBody.length
          ≤ (injectPhase pe ps (clearQuickFix s.file) inp).file.mainBody.length
        rw [h1, List.length_append]
        exact Nat.le_add_right _ _
    | false =>
        rw [hc] at herr
        simp only [Bool.false_eq_true, if_false] at herr ⊢
        cases hb : build (quickFixLoop check maxAttempts
            (injectPhase pe ps (clearQuickFix s.file) inp).file).file with
        | success =>
            simp only [commitOrRollback, hb]
            show s.file.mainBody.length
              ≤ (quickFixLoop check maxAttempts
                  (injectPhase pe ps (clearQuickFix s.file) inp).file).file.mainBody.length
            rw [h2, h1, List.append_assoc, List.length_append]
            exact Nat.le_add_right _ _
        | exit st =>
            by_cases hst : st = 2
            · subst hst
              simp [commitOrRollback, hb] at herr
            · simp only [commitOrRollback, hb, hst, if_false]
              show s.file.mainBody.length
                ≤ (quickFixLoop check maxAttempts
                    (injectPhase pe ps (clearQuickFix s.file) inp).file).file.mainBody.length
              rw [h2, h1, List.append_assoc, List.length_append]
              exact Nat.le_add_right _ _
        | otherFailure =>
            simp only [commitOrRollback, hb]
            show s.file.mainBody.length
              ≤ (quickFixLoop check maxAttempts
                  (injectPhase pe ps (clearQuickFix s.file) inp).file).file.mainBody.length
            rw [h2, h1, List.append_assoc, List.length_append]
            exact Nat.le_add_right _ _

/-- C2 witness: a successful cycle on the fresh session commits the new
body length. -/
theorem checkpoint_lifecycle_witness :
    (Session.run peLit psScanner checkClean buildOk NewSession "1").error = none ∧
    (Session.run peLit psScanner checkClean buildOk NewSession "1").session.storedBodyLength
      = (Session.run peLit psScanner checkClean buildOk NewSession "1").session.file.mainBody.length ∧
    NewSession.file.mainBody.length
      ≤ (Session.run peLit psScanner checkClean buildOk NewSession "1").session.file.mainBody.length :=
  ⟨rfl,
    (checkpoint_lifecycle peLit psScanner checkClean buildOk NewSession "1").2.1 rfl,
    (checkpoint_lifecycle peLit psScanner checkClean buildOk NewSession "1").2.2
      (fun h => Option.noConfusion h)⟩

/-- C3 (code bug): the claim — and the source's own
`// TODO after :print do not run` — say a command cycle ends without the
build/run step, but `Run` falls through to `quickFixFile` and
`BuildRunFile` even when `handleImport`/`handlePrint` handled the input:
both `:print` and `:import fmt` cycles invoke the build. -/
theorem command_cycle_invokes_build :
    isPrintCmd ":print" = true ∧ isImportCmd ":import fmt" = true ∧
    (Session.run peFail psScanner checkClean buildOk NewSession ":print").buildInvoked = true ∧
    (Session.run peFail psScanner checkClean buildOk NewSession ":import fmt").buildInvoked = true :=
  ⟨rfl, rfl, rfl, rfl⟩

/-- C4 counterexample: the input `)` is a genuine, non-continuable syntax
error — `parser.ParseExpr` fails on it and `parser.ParseFile` of
`package P; func F() { ) }` fails with a `scanner.ErrorList` (the only
error kind the Go parser reports) — yet `Run` answers `ErrContinue`
(needs-continuation) instead of surfacing a syntax error to the caller. -/
theorem genuine_syntax_error_not_surfaced :
    (Session.run peFail psScanner checkClean buildOk NewSession ")").error
      = some RunError.errContinue :=
  rfl

/-- C4 (amended): when neither parse succeeds, `Run` distinguishes only
the Go error type, not continuability: a statement-parse failure that is a
`scanner.ErrorList` — incomplete input and genuine syntax errors alike —
yields `ErrContinue` with the body unmutated and no build; a failure of
any other kind is not surfaced for the parse at all — the cycle falls
through to auto-fix and build with the body unmutated by injection. -/
theorem parse_failure_behavior (pe : String → Option Expr)
    (ps : String → Except StmtParseErr (List Stmt))
    (check : File → Option CheckErr) (build : File → BuildResult)
    (s : Session) (inp : String) (err : StmtParseErr)
    (hc1 : isImportCmd inp = false) (hc2 : isPrintCmd inp = false)
    (he : pe inp = none) (hs : ps inp = Except.error err) :
    (err.isScannerErrorList = true →
      (Session.run pe ps check build s inp).error = some RunError.errContinue ∧
      (Session.run pe ps check build s inp).session.file.mainBody = s.file.mainBody ∧
      (Session.run pe ps check build s inp).buildInvoked = false) ∧
    (err.isScannerErrorList = false →
      (Session.run pe ps check build s inp).buildInvoked = true ∧
      (injectPhase pe ps (clearQuickFix s.file) inp).file.mainBody = s.file.mainBody) := by
  have hph : injectPhase pe ps (clearQuickFix s.file) inp
      = { file := clearQuickFix s.file, needsContinue := err.isScannerErrorList,
          printed := none } := by
    unfold injectPhase
    rw [hc1, hc2, he, hs]
    simp
  constructor
  · intro hsc
    rw [run_eq, hph, hsc]
    exact ⟨rfl, clearQuickFix_body s.file, rfl⟩
  · intro hsc
    rw [run_eq, hph, hsc]
    simp only [Bool.false_eq_true, if_false]
    constructor
    · cases hb : build (quickFixLoop check maxAttempts
          (clearQuickFix s.file)).file <;> simp [commitOrRollback, hb]
    · exact clearQuickFix_body s.file

/-- C4 witness: the scanner-error branch at the concrete input `)` on the
fresh session. -/
theorem parse_failure_behavior_witness :
    isImportCmd ")" = false ∧ isPrintCmd ")" = false ∧
    ((Session.run peFail psScanner checkClean buildOk NewSession ")").error
        = some RunError.errContinue ∧
      (Session.run peFail psScanner checkClean buildOk NewSession ")").session.file.mainBody
        = NewSession.file.mainBody ∧
      (Session.run peFail psScanner checkClean buildOk NewSession ")").buildInvoked = false) :=
  ⟨rfl, rfl,
    (parse_failure_behavior peFail psScanner checkClean buildOk NewSession ")"
      { isScannerErrorList := true } rfl rfl rfl rfl).1 rfl⟩

/-- C9: a non-command input that parses as a standalone expression makes
the injection phase append exactly one statement — the call `p(<expr>)`
of the display helper with the parsed expression as its argument, not the
bare expression — and the outcome is the same for every statement-parse
oracle (the statement parse is attempted only when the expression parse
fails). -/
theorem expr_injection (pe : String → Option Expr)
    (ps : String → Except StmtParseErr (List Stmt)) (f : File) (inp : String) (e : Expr)
    (hc1 : isImportCmd inp = false) (hc2 : isPrintCmd inp = false)
    (he : pe inp = some e) :
    injectPhase pe ps f inp
      = { file := { f with mainBody :=
            f.mainBody ++ [Stmt.exprStmt (Expr.call (Expr.ident "p") [e])] },
          needsContinue := false, printed := none } ∧
    (∀ ps2, injectPhase pe ps2 f inp = injectPhase pe ps f inp) := by
  constructor
  · unfold injectPhase
    rw [hc1, hc2, he]
    simp [wrapExpr]
  · intro ps2
    unfold injectPhase
    rw [hc1, hc2, he]

/-- C9 witness: injecting the literal expression `1` into the fresh file. -/
theorem expr_injection_witness :
    peLit "1" = some (Expr.raw "1") ∧
    injectPhase peLit psScanner initialFile "1"
      = { file := { initialFile with mainBody := initialFile.mainBody
            ++ [Stmt.exprStmt (Expr.call (Expr.ident "p") [Expr.raw "1"])] },
          needsContinue := false, printed := none } :=
  ⟨rfl, (expr_injection peLit psScanner initialFile "1" (Expr.raw "1") rfl rfl rfl).1⟩

/-- C10: if the checkpoint is within the body before a cycle, it is within
the body at the rollback point (so the Go truncation slice
`List[0:storedBodyLength]` is in bounds and cannot fail), it is within the
body after the cycle, and the committed (checkpoint-length) prefix of the
body is never changed by the cycle. -/
theorem rollback_in_bounds (pe : String → Option Expr)
    (ps : String → Except StmtParseErr (List Stmt))
    (check : File → Option CheckErr) (build : File → BuildResult)
    (s : Session) (inp : String)
    (hinv : s.storedBodyLength ≤ s.file.mainBody.length) :
    s.storedBodyLength
      ≤ (quickFixLoop check maxAttempts
          (injectPhase pe ps (clearQuickFix s.file) inp).file).file.mainBody.length ∧
    (Session.run pe ps check build s inp).session.storedBodyLength
      ≤ (Session.run pe ps check build s inp).session.file.mainBody.length ∧
    (Session.run pe ps check build s inp).session.file.mainBody.take s.storedBodyLength
      = s.file.mainBody.take s.storedBodyLength := by
  obtain ⟨e1, h1⟩ := injectPhase_body pe ps (clearQuickFix s.file) inp
  rw [clearQuickFix_body] at h1
  obtain ⟨e2, h2⟩ :=
    quickFixLoop_body check maxAttempts (injectPhase pe ps (clearQuickFix s.file) inp).file
  have hbody : (quickFixLoop check maxAttempts
      (injectPhase pe ps (clearQuickFix s.file) inp).file).file.mainBody
        = s.file.mainBody ++ (e1 ++ e2) := by
    rw [h2, h1, List.append_assoc]
  have hmid : s.storedBodyLength
      ≤ (quickFixLoop check maxAttempts
          (injectPhase pe ps (clearQuickFix s.file) inp).file).file.mainBody.length := by
    rw [hbody, List.length_append]
    exact Nat.le_trans hinv (Nat.le_add_right _ _)
  refine ⟨hmid, ?_, ?_⟩
  · rw [run_eq]
    cases hc : (injectPhase pe ps (clearQuickFix s.file) inp).needsContinue with
    | true =>
        rw [if_pos rfl]
        show s.storedBodyLength
          ≤ (injectPhase pe ps (clearQuickFix s.file) inp).file.mainBody.length
        rw [h1, List.length_append]
        exact Nat.le_trans hinv (Nat.le_add_right _ _)
    | false =>
        simp only [Bool.false_eq_true, if_false]
        cases hb : build (quickFixLoop check maxAttempts
            (injectPhase pe ps (clearQuickFix s.file) inp).file).file with
        | success => simp [commitOrRollback, hb]
        | exit st =>
            by_cases hst : st = 2
            · subst hst
              simp only [commitOrRollback, hb]
              show s.storedBodyLength
                ≤ (List.take s.storedBodyLength (quickFixLoop check maxAttempts
                    (injectPhase pe ps (clearQuickFix s.file) inp).file).file.mainBody).length
              rw [List.length_take]
              exact Nat.le_min.mpr ⟨Nat.le_refl _, hmid⟩
            · simp only [commitOrRollback, hb, hst, if_false]
              exact hmid
        | otherFailure =>
            simp only [commitOrRollback, hb]
            exact hmid
  · rw [run_eq]
    cases hc : (injectPhase pe ps (clearQuickFix s.file) inp).needsContinue with
    | true =>
        rw [if_pos rfl]
        show (injectPhase pe ps (clearQuickFix s.file) inp).file.mainBody.take s.storedBodyLength
          = s.file.mainBody.take s.storedBodyLength
        rw [h1, List.take_append_of_le_length hinv]
    | false =>
        simp only [Bool.false_eq_true, if_false]
        cases hb : build (quickFixLoop check maxAttempts
            (injectPhase pe ps (clearQuickFix s.file) inp).file).file with
        | success =>
            simp only [commitOrRollback, hb]
            show (quickFixLoop check maxAttempts
                (injectPhase pe ps (clearQuickFix s.file) inp).file).file.mainBody.take
                  s.storedBodyLength
              = s.file.mainBody.take s.storedBodyLength
            rw [hbody, List.take_append_of_le_length hinv]
        | exit st =>
            by_cases hst : st = 2
            · subst hst
              simp only [commitOrRollback, hb]
              show (List.take s.storedBodyLength (quickFixLoop check maxAttempts
                  (injectPhase pe ps (clearQuickFix s.file) inp).file).file.mainBody).take
                    s.storedBodyLength
                = s.file.mainBody.take s.storedBodyLength
              rw [List.take_take, Nat.min_self, hbody, List.take_append_of_le_length hinv]
            · simp only [commitOrRollback, hb, hst, if_false]
              show (quickFixLoop check maxAttempts
                  (injectPhase pe ps (clearQuickFix s.file) inp).file).file.mainBody.take
                    s.storedBodyLength
                = s.file.mainBody.take s.storedBodyLength
              rw [hbody, List.take_append_of_le_length hinv]
        | otherFailure =>
            simp only [commitOrRollback, hb]
            show (quickFixLoop check maxAttempts
                (injectPhase pe ps (clearQuickFix s.file) inp).file).file.mainBody.take
                  s.storedBodyLength
              = s.file.mainBody.take s.storedBodyLength
            rw [hbody, List.take_append_of_le_length hinv]

/-- C10 witness: the fresh session satisfies the invariant, and a cycle
with a non-rollback failure preserves it. -/
theorem rollback_in_bounds_witness :
    NewSession.storedBodyLength ≤ NewSession.file.mainBody.length ∧
    (Session.run peLit psScanner checkClean buildExit1 NewSession "1").session.storedBodyLength
      ≤ (Session.run peLit psScanner checkClean buildExit1 NewSession "1").session.file.mainBody.length :=
  ⟨Nat.le_refl 0,
    (rollback_in_bounds peLit psScanner checkClean buildExit1 NewSession "1"
      (Nat.le_refl 0)).2.1⟩

end Gore
